import Mathlib

/-!
Verification of the Stock Manager data-management core (`main.py`,
class `StockManager`): a shallow embedding of the in-memory table,
the four operations `do_add_data`, `do_query`, `do_generate`,
`do_show_top`, and theorems about them.

Modelling conventions:
* a cell value is text, an integer, a float (modelled as a rational),
  or the null marker (pandas `NaN`);
* a row is the association list of the cells present in its source
  file; a column absent from a row reads as the null marker, which is
  exactly how `pd.concat` fills unioned columns;
* filesystem facts (`os.path.isdir`, the directory listing, per-file
  parse success, write success) enter as explicit parameters;
* library calls (`pd.concat`, `groupby`, `head`, `str.contains`,
  `int(...)`, `str.split`, `str.strip`) are modelled definitionally,
  each with a comment stating the pandas/Python behaviour embedded.
-/

namespace StockSpec

/-- A dynamically typed cell of the table. `vnull` is the pandas `NaN`
null marker used both for missing cells and unparsed numerics. -/
inductive Value
  | vstr (s : String)
  | vint (n : Int)
  | vfloat (q : ℚ)
  | vnull
deriving DecidableEq

/-- A row: the cells present in the row, keyed by column name. -/
abbrev Row := List (String × Value)

/-- Reading a cell of a row: a column absent from the row reads as the
null marker (pandas fills unioned columns with `NaN`). -/
def getCell (r : Row) (c : String) : Value := (r.lookup c).getD .vnull

/-- The manager's in-memory dataset `self.data`: an ordered column list
and an ordered row list. -/
structure Table where
  cols : List String
  rows : List Row
deriving DecidableEq

/-- Python `str.strip()` on the character list: drop whitespace from
both ends. -/
def trimChars (l : List Char) : List Char :=
  ((l.dropWhile Char.isWhitespace).reverse.dropWhile Char.isWhitespace).reverse

/-- Python `str.strip()`. -/
def pyStrip (s : String) : String := String.mk (trimChars s.toList)

/-- Python `str.split` on the single character `=`: returns the first
part and the list of remaining parts (so the number of parts is one
more than the number of `=` occurrences). -/
def splitParts : List Char → List Char × List (List Char)
  | [] => ([], [])
  | c :: cs =>
    let (p, ps) := splitParts cs
    if c = '=' then ([], p :: ps) else (c :: p, ps)

/-- Model of `column, value = condition.split('=')`: the two-element
unpacking succeeds exactly when the split yields two parts, i.e. when
`condition` holds exactly one `=`; otherwise Python raises
`ValueError`, modelled as `none`. -/
def splitEq (s : String) : Option (String × String) :=
  match splitParts s.toList with
  | (p, [q]) => some (String.mk p, String.mk q)
  | _ => none

/-- The regular-expression metacharacters of Python `re`; a pattern
character outside this list always stands for itself. -/
def reMetachars : List Char :=
  ['.', '^', '$', '*', '+', '?', '\x7b', '\x7d', '[', ']', '\\', '|', '(', ')']

/-- Whether a character is a Python `re` metacharacter. -/
def isMetachar (c : Char) : Bool := reMetachars.contains c

/-- The pattern fragment this embedding models exactly: every
character is an ordinary literal or the `.` wildcard. Patterns using
the other metacharacters (`*`, `+`, `?`, classes, anchors, escapes,
alternation, groups — including malformed ones, on which `re.compile`
raises an `re.error` that `do_query` does not catch) are outside the
embedding, and the matching theorems carry this predicate as a
hypothesis. -/
def fragmentPattern (pat : String) : Bool :=
  pat.toList.all (fun c => !isMetachar c || c = '.')

/-- A pattern with no regex metacharacter at all: on these,
`re.search` is exactly case-insensitive substring containment. -/
def literalPattern (pat : String) : Bool :=
  pat.toList.all (fun c => !isMetachar c)

/-- Case-insensitive match of one regex pattern character against one
text character (`re.IGNORECASE`): the metacharacter `.` matches any
character except a newline (`re.DOTALL` is off), every other
character matches itself up to case. Faithful for pattern characters
that are literals or `.`; see `fragmentPattern`. -/
def charMatch (p c : Char) : Bool := (p = '.' && c != '\n') || p.toLower = c.toLower

/-- The pattern matches a prefix of the text, character by character. -/
def matchesAt : List Char → List Char → Bool
  | [], _ => true
  | _ :: _, [] => false
  | p :: ps, c :: cs => charMatch p c && matchesAt ps cs

/-- Python `re.search`: the pattern matches starting at some position
of the text. -/
def reSearch (pat : List Char) : List Char → Bool
  | [] => matchesAt pat []
  | c :: cs => matchesAt pat (c :: cs) || reSearch pat cs

/-- pandas `Series.str.contains(value, case=False, na=False)` applied
to one stringified cell. The pandas default is `regex=True`, so
`value` is a regular expression searched case-insensitively, not a
literal substring. This function is an exact model of that search
only for patterns satisfying `fragmentPattern` (literals and the `.`
wildcard); on other patterns the program's `re.search` follows the
full regex semantics — or raises an uncaught `re.error` on a
malformed pattern — which this embedding does not reproduce, so no
theorem below asserts anything about them. -/
def strContains (cell pat : String) : Bool := reSearch pat.toList cell.toList

/-- Plain containment of `needle` in `hay` as a contiguous run of
equal characters. -/
def listSub (needle : List Char) : List Char → Bool
  | [] => needle.isEmpty
  | c :: cs => needle.isPrefixOf (c :: cs) || listSub needle cs

/-- Written from the spec's words, for comparison with the code's
`strContains`: case-insensitive substring containment of the raw value
in the stringified cell. -/
def isSubstrCI (needle hay : String) : Bool :=
  listSub (needle.toList.map Char.toLower) (hay.toList.map Char.toLower)

/-- Decimal rendering of a rational that is exact on integral values
(Python renders the float 10.0 as "10.0"); non-integral values use the
rational notation, an approximation of Python float repr that no
theorem below depends on. -/
def ratToStr (q : ℚ) : String :=
  if q.den = 1 then toString q.num ++ ".0" else toString q

/-- pandas `astype(str)` on one cell: text stays itself, numbers
render decimally, and the null marker renders as the fixed string
"nan". -/
def Value.toStr : Value → String
  | .vstr s => s
  | .vint n => toString n
  | .vfloat q => ratToStr q
  | .vnull => "nan"

/-- Outcome of `do_query`. -/
inductive QueryResult
  | noData
  | badFormat
  | columnNotFound (c : String)
  | results (rows : List Row)
deriving DecidableEq

/-- StockManager.do_query: guard on empty data, split the condition on
`=` (a failed two-way unpack raises the caught `ValueError`), strip
both parts, guard on column membership, then keep the rows whose
stringified cell at the column matches the value under
`str.contains(value, case=False, na=False)`. The filtering branch is
a faithful image of the program only for values in the modelled
pattern fragment (`fragmentPattern`); the guards and their order are
faithful for every input, since they run before the pattern is ever
compiled. -/
def doQuery (condition : String) (t : Table) : QueryResult :=
  if t.rows.isEmpty then .noData
  else
    match splitEq condition with
    | none => .badFormat
    | some (c, v) =>
      let column := pyStrip c
      let value := pyStrip v
      if column ∈ t.cols then
        .results (t.rows.filter (fun r => strContains (getCell r column).toStr value))
      else .columnNotFound column

/-- Sort key giving the order pandas `groupby(sort=True)` uses on the
group labels: numerics compare numerically, texts lexicographically
(homogeneous label columns in practice; the cross-kind rank only makes
the order total). -/
def vkey : Value → ℕ ×ₗ (List ℕ ×ₗ ℚ)
  | .vnull => toLex (0, toLex ([], 0))
  | .vint n => toLex (1, toLex ([], (n : ℚ)))
  | .vfloat q => toLex (1, toLex ([], q))
  | .vstr s => toLex (2, toLex (s.toList.map Char.toNat, 0))

/-- The group-label order of `groupby(sort=True)`. -/
def vle (a b : Value) : Prop := vkey a ≤ vkey b

instance : DecidableRel vle :=
  fun a b => inferInstanceAs (Decidable (vkey a ≤ vkey b))

instance : IsTotal Value vle := ⟨fun a b => le_total (vkey a) (vkey b)⟩

instance : IsTrans Value vle := ⟨fun _ _ _ h h2 => le_trans h h2⟩

/-- Rational addition written through `mkRat` so that it evaluates by
kernel reduction; `qAdd_eq` below proves it is ordinary addition. -/
def qAdd (a b : ℚ) : ℚ := mkRat (a.num * (b.den : Int) + b.num * (a.den : Int)) (a.den * b.den)

/-- Sum of a list of rationals through `qAdd`; `qSum_eq` below proves
it is `List.sum`. -/
def qSum (l : List ℚ) : ℚ := l.foldr qAdd 0

/-- Division of a rational by a natural number written through
`mkRat`; `qDivNat_eq` below proves it is ordinary division. -/
def qDivNat (a : ℚ) (n : ℕ) : ℚ := mkRat a.num (a.den * n)

/-- The `category` cell of a row. -/
def catOf (r : Row) : Value := getCell r "category"

/-- Distinct elements in order of first appearance. -/
def firstAppearAux (seen : List Value) : List Value → List Value
  | [] => []
  | v :: vs =>
    if v ∈ seen then firstAppearAux seen vs
    else v :: firstAppearAux (v :: seen) vs

/-- Distinct elements of a list in order of first appearance. -/
def firstAppear (l : List Value) : List Value := firstAppearAux [] l

/-- The non-null `category` values of the table, in row order
(`groupby` drops null group labels: `dropna=True` is the default). -/
def catsOf (t : Table) : List Value :=
  (t.rows.map catOf).filter (fun v => decide (v ≠ .vnull))

/-- The group labels of `self.data.groupby('category')`: the distinct
non-null category values, in sorted order (`sort=True` is the
`groupby` default). -/
def groupKeys (t : Table) : List Value :=
  List.insertionSort vle (firstAppear (catsOf t))

/-- Numeric reading of a cell: pandas aggregation skips the null
marker (`skipna=True`), and text never reaches a numeric column of a
parsed CSV in the aggregations modelled here. -/
def toNum : Value → Option ℚ
  | .vint n => some ((n : ℚ))
  | .vfloat q => some q
  | _ => none

/-- One row of the generated summary: the group label, the summed
`quantity` (renamed "Total Quantity") and the mean `unit_price`
(renamed "Average Price", null when the group has no numeric price). -/
structure SummaryRow where
  category : Value
  totalQuantity : ℚ
  averagePrice : Option ℚ
deriving DecidableEq

/-- The rows of the group labelled `k`. -/
def groupRows (t : Table) (k : Value) : List Row :=
  t.rows.filter (fun r => decide (catOf r = k))

/-- pandas `sum` aggregation over a group's `quantity` cells: sum of
the numeric values, skipping nulls; the empty sum is 0. -/
def sumQuantity (rs : List Row) : ℚ :=
  qSum ((rs.map (fun r => getCell r "quantity")).filterMap toNum)

/-- pandas `mean` aggregation over a group's `unit_price` cells:
arithmetic mean of the numeric values, skipping nulls; null when none
remain. -/
def meanPrice (rs : List Row) : Option ℚ :=
  let ps := (rs.map (fun r => getCell r "unit_price")).filterMap toNum
  if ps.isEmpty then none else some (qDivNat (qSum ps) ps.length)

/-- The summary table built by
`data.groupby('category').agg(quantity sum, unit_price mean)`:
one row per group label, in the label order `groupby` uses. -/
def summarize (t : Table) : List SummaryRow :=
  (groupKeys t).map (fun k => ⟨k, sumQuantity (groupRows t k), meanPrice (groupRows t k)⟩)

/-- Outcome of `do_generate`. `uncaughtWriteError` is an exception
raised by `summary.to_csv(...)`; `do_generate` wraps it in no
try/except, so it escapes the method. -/
inductive GenResult
  | noData
  | missingColumns
  | written (summary : List SummaryRow) (path : String)
  | uncaughtWriteError
deriving DecidableEq

/-- The `necessary_columns` list of `do_generate`. -/
def requiredColumns : List String := ["category", "quantity", "unit_price"]

/-- StockManager.do_generate: guard on empty data, guard on the three
required columns, build the summary, resolve the output path
(`output_file.strip() or "summary_report.csv"`), then write. The
`writeOk` parameter says whether `to_csv` succeeds; on failure the
exception is not caught. -/
def doGenerate (outputFile : String) (writeOk : Bool) (t : Table) : GenResult :=
  if t.rows.isEmpty then .noData
  else if ¬ (requiredColumns.all (fun c => decide (c ∈ t.cols))) then .missingColumns
  else
    let path := if pyStrip outputFile = "" then "summary_report.csv" else pyStrip outputFile
    if writeOk then .written (summarize t) path else .uncaughtWriteError

/-- Accumulate decimal digits, as Python `int` does. -/
def digitsToNat (ds : List Char) : Nat :=
  ds.foldl (fun a c => a * 10 + (c.toNat - 48)) 0

/-- Python `int(s)` on the common forms: surrounding whitespace is
ignored, an optional single sign precedes a non-empty digit run;
anything else raises the caught `ValueError`, modelled as `none`. -/
def pythonInt (s : String) : Option Int :=
  match trimChars s.toList with
  | [] => none
  | c :: cs =>
    let (neg, ds) :=
      if c = '-' then (true, cs)
      else if c = '+' then (false, cs)
      else (false, c :: cs)
    if !ds.isEmpty && ds.all Char.isDigit then
      some (if neg then -(digitsToNat ds : Int) else (digitsToNat ds : Int))
    else none

/-- Outcome of `do_show_top`. -/
inductive TopResult
  | noData
  | invalidCount
  | shown (rows : List Row)
deriving DecidableEq

/-- pandas `DataFrame.head(n)`: the first `n` rows when `n` is
non-negative, and all rows but the last `-n` when `n` is negative
(`head(-1)` on three rows keeps the first two). -/
def pandasHead (n : Int) (rows : List Row) : List Row :=
  if 0 ≤ n then rows.take n.toNat else rows.take (rows.length - (-n).toNat)

/-- StockManager.do_show_top: guard on empty data, parse the count
(`int(count) if count else 5`: the empty argument defaults to 5, an
unparseable one raises the caught `ValueError`), then show
`data.head(count)`. -/
def doShowTop (count : String) (t : Table) : TopResult :=
  if t.rows.isEmpty then .noData
  else if count = "" then .shown (pandasHead 5 t.rows)
  else
    match pythonInt count with
    | some n => .shown (pandasHead n t.rows)
    | none => .invalidCount

/-- Per-file outcome of `pd.read_csv` as `do_add_data` distinguishes
them: a parsed frame, or one of the caught
`EmptyDataError`/`ParserError` failures (the file is skipped).
`read_csv` can also raise exceptions the method does not catch
(`IsADirectoryError`, `UnicodeDecodeError`, `OSError`, ...): such a
crash aborts the command before `self.data` is ever assigned and is
one of the uncaught-exception paths outside this embedding's load
model — the session-level theorem below therefore does not claim the
write failure is the only fatal path. -/
inductive ParseOutcome
  | parsed (t : Table)
  | parseFailed
deriving DecidableEq

/-- Outcome of `do_add_data`. -/
inductive AddOutcome
  | notADirectory
  | noInputFiles
  | noValidData
  | loaded
deriving DecidableEq

/-- The frames of the files that parsed, in enumeration order. -/
def successFrames (files : List ParseOutcome) : List Table :=
  files.filterMap (fun f => match f with | .parsed t => some t | .parseFailed => none)

/-- Union of the column lists in order of first appearance, as
`pd.concat` computes the result columns (`sort=False` default). -/
def unionCols (css : List (List String)) : List String :=
  css.foldl (fun acc cs => acc ++ cs.filter (fun c => decide (c ∉ acc))) []

/-- pandas `pd.concat(frames, ignore_index=True)`: rows are the
frames' rows in order; columns are the union; a row lacking a column
reads as the null marker (see `getCell`). -/
def concatFrames (fs : List Table) : Table :=
  ⟨unionCols (fs.map Table.cols), (fs.map Table.rows).flatten⟩

/-- StockManager.do_add_data: guard on the directory, guard on the
`.csv` listing, parse each file (failures are caught and skipped),
and when at least one frame parsed, replace the table with the
concatenation; otherwise report and leave the table alone. `isDir`
and the per-file outcomes stand for the filesystem facts. -/
def doAddData (isDir : Bool) (files : List ParseOutcome) (t : Table) :
    AddOutcome × Table :=
  if ¬ isDir then (.notADirectory, t)
  else if files.isEmpty then (.noInputFiles, t)
  else
    let frames := successFrames files
    if frames.isEmpty then (.noValidData, t)
    else (.loaded, concatFrames frames)

/-- One command of the session loop, with its filesystem facts. -/
inductive Command
  | addData (isDir : Bool) (files : List ParseOutcome)
  | queryCmd (condition : String)
  | generateCmd (outputFile : String) (writeOk : Bool)
  | showTopCmd (count : String)

/-- Result of one dispatched command. -/
inductive StepResult
  | addRes (r : AddOutcome)
  | queryRes (r : QueryResult)
  | genRes (r : GenResult)
  | topRes (r : TopResult)
deriving DecidableEq

/-- One turn of the command loop: run the method on the current table
and return its outcome with the table it leaves behind. Only the
success path of `do_add_data` assigns `self.data`. -/
def step : Command → Table → StepResult × Table
  | .addData d fs, t => ((.addRes (doAddData d fs t).1), (doAddData d fs t).2)
  | .queryCmd c, t => (.queryRes (doQuery c t), t)
  | .generateCmd o w, t => (.genRes (doGenerate o w t), t)
  | .showTopCmd c, t => (.topRes (doShowTop c t), t)

/-- The outcomes each method handles itself: it prints a message and
returns, and the session continues. -/
def isHandledError : StepResult → Bool
  | .addRes .notADirectory => true
  | .addRes .noInputFiles => true
  | .addRes .noValidData => true
  | .queryRes .noData => true
  | .queryRes .badFormat => true
  | .queryRes (.columnNotFound _) => true
  | .genRes .noData => true
  | .genRes .missingColumns => true
  | .topRes .noData => true
  | .topRes .invalidCount => true
  | _ => false

/-- An exception escaping the method: `cmd.Cmd.cmdloop` wraps
`onecmd` in no handler, so the session terminates. This flags the
uncaught `to_csv` write failure, the fatal path the embedding
represents explicitly; the program has further uncaught-exception
paths (a malformed regex raising `re.error` in `do_query`, `read_csv`
exceptions outside the two caught classes in `do_add_data`) that the
step model does not enumerate, so no theorem treats this flag as
exhaustive for the program. -/
def isFatal : StepResult → Bool
  | .genRes .uncaughtWriteError => true
  | _ => false

/-- A table with a null-category row removed: helper for stating that
such rows take no part in the summary. -/
def dropNullCat (t : Table) : Table :=
  ⟨t.cols, t.rows.filter (fun r => decide (catOf r ≠ .vnull))⟩

/-- The three rows of the spec's worked example. -/
def rowA1 : Row :=
  [("category", .vstr "A"), ("quantity", .vint 10), ("unit_price", .vfloat 5)]

/-- Second example row. -/
def rowB1 : Row :=
  [("category", .vstr "B"), ("quantity", .vint 20), ("unit_price", .vfloat 10)]

/-- Third example row. -/
def rowA2 : Row :=
  [("category", .vstr "A"), ("quantity", .vint 30), ("unit_price", .vfloat 15)]

/-- The spec's worked example table. -/
def sampleTable : Table :=
  ⟨["category", "quantity", "unit_price"], [rowA1, rowB1, rowA2]⟩

/-- The same rows with category B first: first-appearance order B, A
differs from sorted order A, B. -/
def tableBA : Table :=
  ⟨["category", "quantity", "unit_price"], [rowB1, rowA1, rowA2]⟩

/-- The manager's startup table `pd.DataFrame()`. -/
def emptyTable : Table := ⟨[], []⟩

/-- A one-row table used to exercise the regex metacharacter. -/
def dotTable : Table := ⟨["category"], [[("category", Value.vstr "A")]]⟩

/-- A table whose second row has a null category cell. -/
def nullCatTable : Table :=
  ⟨["category", "quantity", "unit_price"],
   [rowA1, [("quantity", .vint 7), ("unit_price", .vfloat 3)], rowB1]⟩

/-- Two example frames with differing column sets, and one parse
failure between them. -/
def frameOne : Table := ⟨["category", "quantity"], [rowA1, rowB1]⟩

/-- Second example frame, adding a column. -/
def frameTwo : Table := ⟨["category", "unit_price"], [rowA2]⟩

/-- A directory listing with two parseable files and one unparseable
one. -/
def sampleFiles : List ParseOutcome := [.parsed frameOne, .parseFailed, .parsed frameTwo]

/-! ## Bridge lemmas for the `mkRat`-phrased arithmetic -/

theorem qAdd_eq (a b : ℚ) : qAdd a b = a + b := by
  unfold qAdd
  rw [Rat.mkRat_eq_div]
  push_cast
  conv_rhs => rw [← Rat.num_div_den a, ← Rat.num_div_den b]
  rw [div_add_div _ _ (by exact_mod_cast a.den_nz) (by exact_mod_cast b.den_nz)]
  ring_nf

theorem qSum_eq (l : List ℚ) : qSum l = l.sum := by
  induction l with
  | nil => rfl
  | cons x xs ih => simp [qSum, List.foldr_cons, List.sum_cons, qAdd_eq] at ih ⊢; rw [ih]

theorem qDivNat_eq (a : ℚ) (n : ℕ) : qDivNat a n = a / (n : ℚ) := by
  unfold qDivNat
  rw [Rat.mkRat_eq_div]
  push_cast
  rw [← div_div, Rat.num_div_den a]

/-! ## Helper lemmas -/

theorem mem_unionCols_foldl (css : List (List String)) (acc : List String) (c : String) :
    c ∈ css.foldl (fun acc2 cs => acc2 ++ cs.filter (fun x => decide (x ∉ acc2))) acc
      ↔ c ∈ acc ∨ ∃ cs ∈ css, c ∈ cs := by
  induction css generalizing acc with
  | nil => simp
  | cons cs rest ih =>
    rw [List.foldl_cons, ih]
    simp only [List.mem_append, List.mem_filter, decide_eq_true_eq, List.mem_cons]
    constructor
    · rintro (((hc | ⟨hc, _⟩) | ⟨ds, hds, hc⟩))
      · exact Or.inl hc
      · exact Or.inr ⟨cs, Or.inl rfl, hc⟩
      · exact Or.inr ⟨ds, Or.inr hds, hc⟩
    · rintro (hc | ⟨ds, (rfl | hds), hc⟩)
      · exact Or.inl (Or.inl hc)
      · by_cases hacc : c ∈ acc
        · exact Or.inl (Or.inl hacc)
        · exact Or.inl (Or.inr ⟨hc, hacc⟩)
      · exact Or.inr ⟨ds, hds, hc⟩

theorem mem_unionCols (css : List (List String)) (c : String) :
    c ∈ unionCols css ↔ ∃ cs ∈ css, c ∈ cs := by
  unfold unionCols
  rw [mem_unionCols_foldl]
  simp

theorem splitParts_count (l : List Char) :
    (splitParts l).2.length = l.count '=' := by
  induction l with
  | nil => rfl
  | cons c cs ih =>
    by_cases hc : c = '='
    · subst hc
      simp [splitParts, List.count_cons, ih]
    · simp [splitParts, hc, List.count_cons, ih]

theorem splitEq_none_iff (s : String) :
    splitEq s = none ↔ s.toList.count '=' ≠ 1 := by
  unfold splitEq
  rw [← splitParts_count s.toList]
  rcases hsp : splitParts s.toList with ⟨p, ps⟩
  cases ps with
  | nil => simp
  | cons q qs =>
    cases qs with
    | nil => simp
    | cons q2 qs2 => simp

theorem doAddData_snd_of_ne_loaded (isDir : Bool) (files : List ParseOutcome) (t : Table)
    (h : (doAddData isDir files t).1 ≠ .loaded) :
    (doAddData isDir files t).2 = t := by
  unfold doAddData at h ⊢
  by_cases hd : isDir
  · by_cases hf : files.isEmpty
    · simp [hd, hf]
    · by_cases hsucc : (successFrames files).isEmpty
      · simp [hd, hf, hsucc]
      · simp [hd, hf, hsucc] at h
  · simp [hd]

theorem matchesAt_no_dot (pat : List Char) (hp : '.' ∉ pat) (s : List Char) :
    matchesAt pat s = (pat.map Char.toLower).isPrefixOf (s.map Char.toLower) := by
  induction pat generalizing s with
  | nil => cases s <;> simp [matchesAt, List.isPrefixOf]
  | cons p ps ih =>
    have hpd : p ≠ '.' := fun he => hp (he ▸ List.mem_cons_self p ps)
    have hps : '.' ∉ ps := fun hm => hp (List.mem_cons_of_mem p hm)
    cases s with
    | nil => simp [matchesAt, List.isPrefixOf]
    | cons c cs =>
      simp only [matchesAt, charMatch, List.map_cons, List.isPrefixOf, ih hps]
      rw [decide_eq_false hpd]
      simp only [Bool.false_and, Bool.false_or]
      by_cases hq : p.toLower = c.toLower
      · simp [hq]
      · simp [hq, beq_iff_eq]

theorem reSearch_no_dot (pat : List Char) (hp : '.' ∉ pat) (s : List Char) :
    reSearch pat s = listSub (pat.map Char.toLower) (s.map Char.toLower) := by
  induction s with
  | nil =>
    rw [reSearch, matchesAt_no_dot pat hp]
    cases pat <;> simp [listSub, List.isPrefixOf, List.isEmpty_iff]
  | cons c cs ih =>
    rw [reSearch, matchesAt_no_dot pat hp, ih, List.map_cons, listSub]

theorem strContains_no_dot (cell v : String) (hp : '.' ∉ v.toList) :
    strContains cell v = isSubstrCI v cell := by
  unfold strContains isSubstrCI
  exact reSearch_no_dot v.toList hp cell.toList

theorem reSearch_nil (s : List Char) : reSearch [] s = true := by
  cases s with
  | nil => rfl
  | cons c cs => simp [reSearch, matchesAt]

theorem strContains_empty (cell : String) : strContains cell "" = true := by
  unfold strContains
  exact reSearch_nil cell.toList

/-! ## Claim theorems -/

/-- C1: a successful load (the path is a directory, the listing is
non-empty, at least one file parsed) replaces the table with the
row-wise concatenation of the parsed frames: the rows are exactly the
frames' rows in enumeration order, the row count is the sum of the
frames' row counts, the column set is the union of the frames' column
sets, the result does not depend on the previous table, and a cell
absent from its row's source frame reads as the null marker. -/
theorem C1_load_concatenation (files : List ParseOutcome) (t0 : Table)
    (h : successFrames files ≠ []) :
    (doAddData true files t0).1 = .loaded
    ∧ (doAddData true files t0).2.rows = ((successFrames files).map Table.rows).flatten
    ∧ (doAddData true files t0).2.rows.length
        = ((successFrames files).map (fun f => f.rows.length)).sum
    ∧ (∀ c, c ∈ (doAddData true files t0).2.cols ↔ ∃ f ∈ successFrames files, c ∈ f.cols)
    ∧ (∀ t1, doAddData true files t1 = doAddData true files t0)
    ∧ (∀ r ∈ (doAddData true files t0).2.rows, ∀ c, r.lookup c = none →
        getCell r c = .vnull) := by
  have hfiles : files ≠ [] := by
    intro he
    rw [he] at h
    exact h rfl
  have hd : ∀ t : Table, doAddData true files t = (.loaded, concatFrames (successFrames files)) := by
    intro t
    unfold doAddData
    rw [if_neg (by simp), if_neg (by simpa using hfiles),
        if_neg (by simpa using h)]
  refine ⟨by rw [hd], by rw [hd]; rfl, ?_, ?_, fun t1 => by rw [hd, hd], ?_⟩
  · rw [hd]
    show (((successFrames files).map Table.rows).flatten).length = _
    rw [List.length_flatten, List.map_map]
    rfl
  · intro c
    rw [hd]
    show c ∈ unionCols ((successFrames files).map Table.cols) ↔ _
    rw [mem_unionCols]
    simp
  · intro r _ c hc
    unfold getCell
    rw [hc]
    rfl

/-- Witness for C1 at a concrete input: two parseable frames with
differing columns around one unparseable file. -/
theorem C1_load_concatenation_witness :
    (doAddData true sampleFiles emptyTable).1 = .loaded :=
  (C1_load_concatenation sampleFiles emptyTable (by decide)).1

/-- C6: query fails with NoDataLoadedError iff the table is empty;
otherwise with InvalidConditionFormatError iff the condition does not
hold exactly one = delimiter; otherwise with ColumnNotFoundError iff
the named (stripped) column is absent from the schema. -/
theorem C6_query_error_precedence (cond : String) (t : Table) :
    (doQuery cond t = .noData ↔ t.rows = [])
    ∧ (t.rows ≠ [] → (doQuery cond t = .badFormat ↔ cond.toList.count '=' ≠ 1))
    ∧ (∀ c v, t.rows ≠ [] → splitEq cond = some (c, v) →
        (doQuery cond t = .columnNotFound (pyStrip c) ↔ pyStrip c ∉ t.cols)) := by
  cases ht : t.rows.isEmpty with
  | true =>
    have hnil : t.rows = [] := by simpa using ht
    refine ⟨by simp [doQuery, ht, hnil], fun h => absurd hnil h, fun c v h _ => absurd hnil h⟩
  | false =>
    have hnil : t.rows ≠ [] := by simpa using ht
    refine ⟨?_, fun _ => ?_, fun c v _ hsp => ?_⟩
    · rw [iff_false_intro hnil, iff_false]
      unfold doQuery
      rw [ht]
      rcases hsp : splitEq cond with _ | ⟨c, v⟩
      · simp
      · by_cases hcol : pyStrip c ∈ t.cols <;> simp [hcol]
    · rw [← splitEq_none_iff]
      unfold doQuery
      rw [ht]
      rcases hsp : splitEq cond with _ | ⟨c, v⟩
      · simp
      · by_cases hcol : pyStrip c ∈ t.cols <;> simp [hcol]
    · unfold doQuery
      rw [ht, hsp]
      by_cases hcol : pyStrip c ∈ t.cols <;> simp [hcol]

/-- Witness for C6 at a concrete input: querying before any load
reports the no-data error. -/
theorem C6_query_error_precedence_witness :
    doQuery "a=b" emptyTable = .noData :=
  (C6_query_error_precedence "a=b" emptyTable).1.mpr rfl

/-- C10: a condition of the form column= (the rawValue is the empty
string) is accepted as well-formed, and since every stringified cell
contains the empty substring, query returns every row of the table. -/
theorem C10_empty_value_matches_all (t : Table) (cond c v : String)
    (h1 : t.rows ≠ []) (h2 : splitEq cond = some (c, v))
    (h3 : pyStrip v = "") (h4 : pyStrip c ∈ t.cols) :
    doQuery cond t = .results t.rows := by
  have ht : t.rows.isEmpty = false := by simpa using h1
  unfold doQuery
  rw [ht, h2]
  simp only [h3, h4, if_true, Bool.false_eq_true, if_false, if_pos h4]
  congr 1
  exact List.filter_eq_self.mpr (fun r _ => strContains_empty (getCell r (pyStrip c)).toStr)

/-- Witness for C10 at a concrete input. -/
theorem C10_empty_value_matches_all_witness :
    doQuery "category=" sampleTable = .results sampleTable.rows :=
  C10_empty_value_matches_all sampleTable "category=" "category" ""
    (by decide) (by decide) (by decide) (by decide)

/-- C5 counterexample: the rawValue "." lies in the exactly modelled
pattern fragment and is a regex wildcard for
`str.contains(regex=True)`, so the query keeps the row whose cell is
"A" even though "A" does not contain "." as a substring: the result is
not the substring-filtered subsequence the claim describes. -/
theorem C5_counterexample :
    fragmentPattern "." = true
    ∧ doQuery "category=." dotTable = .results dotTable.rows
    ∧ isSubstrCI "." (Value.vstr "A").toStr = false
    ∧ doQuery "category=." dotTable
        ≠ .results (dotTable.rows.filter
            (fun r => isSubstrCI "." (getCell r "category").toStr)) := by decide

/-- C5 amended: for a non-empty table, a well-formed condition, a
present column and a stripped rawValue inside the pattern fragment on
which the embedded matcher models `re.search` exactly (literals and
the `.` wildcard — the `fragmentPattern` hypothesis confines the
statement to the patterns the embedding is faithful on), query
returns the ordered sub-sequence (a sublist, so table order is
preserved) of rows whose stringified cell at the column matches the
stripped rawValue as a case-insensitive regular expression
(`re.search`, the pandas str.contains default); when the rawValue
holds no regex metacharacter at all this coincides with
case-insensitive substring containment. An empty result is the
non-error outcome `results []`. -/
theorem C5_query_amended (t : Table) (cond c v : String)
    (h1 : t.rows ≠ []) (h2 : splitEq cond = some (c, v)) (h3 : pyStrip c ∈ t.cols)
    (h4 : fragmentPattern (pyStrip v) = true) :
    doQuery cond t
      = .results (t.rows.filter (fun r => strContains (getCell r (pyStrip c)).toStr (pyStrip v)))
    ∧ List.Sublist
        (t.rows.filter (fun r => strContains (getCell r (pyStrip c)).toStr (pyStrip v))) t.rows
    ∧ (literalPattern (pyStrip v) = true →
        t.rows.filter (fun r => strContains (getCell r (pyStrip c)).toStr (pyStrip v))
          = t.rows.filter (fun r => isSubstrCI (pyStrip v) (getCell r (pyStrip c)).toStr)) := by
  have ht : t.rows.isEmpty = false := by simpa using h1
  refine ⟨?_, List.filter_sublist t.rows, fun hp => ?_⟩
  · unfold doQuery
    rw [ht, h2]
    simp [h3]
  · have hdot : '.' ∉ (pyStrip v).toList := by
      intro hmem
      have := List.all_eq_true.mp hp _ hmem
      simp [isMetachar, reMetachars] at this
    exact List.filter_congr (fun r _ => strContains_no_dot (getCell r (pyStrip c)).toStr _ hdot)

/-- Witness for C5 amended at a concrete input. -/
theorem C5_query_amended_witness :
    doQuery "category=A" sampleTable = .results [rowA1, rowA2] := by
  have h := (C5_query_amended sampleTable "category=A" "category" "A"
    (by decide) (by decide) (by decide) (by decide)).1
  rw [h]; decide

theorem mem_firstAppearAux (seen l : List Value) (v : Value) :
    v ∈ firstAppearAux seen l ↔ v ∈ l ∧ v ∉ seen := by
  induction l generalizing seen with
  | nil => simp [firstAppearAux]
  | cons x xs ih =>
    by_cases hx : x ∈ seen
    · rw [firstAppearAux, if_pos hx, ih]
      simp only [List.mem_cons]
      constructor
      · rintro ⟨h1, h2⟩
        exact ⟨Or.inr h1, h2⟩
      · rintro ⟨rfl | h1, h2⟩
        · exact absurd hx h2
        · exact ⟨h1, h2⟩
    · rw [firstAppearAux, if_neg hx]
      simp only [List.mem_cons, ih (x :: seen)]
      constructor
      · rintro (rfl | ⟨h1, h2⟩)
        · exact ⟨Or.inl rfl, hx⟩
        · exact ⟨Or.inr h1, fun hs => h2 (Or.inr hs)⟩
      · rintro ⟨rfl | h1, h2⟩
        · exact Or.inl rfl
        · by_cases he : v = x
          · exact Or.inl he
          · exact Or.inr ⟨h1, fun hs => hs.elim he h2⟩

theorem mem_firstAppear (l : List Value) (v : Value) :
    v ∈ firstAppear l ↔ v ∈ l := by
  unfold firstAppear
  rw [mem_firstAppearAux]
  simp

theorem groupKeys_ne_null (t : Table) (k : Value) (hk : k ∈ groupKeys t) :
    k ≠ .vnull := by
  unfold groupKeys at hk
  rw [List.mem_insertionSort, mem_firstAppear] at hk
  unfold catsOf at hk
  have := (List.mem_filter.mp hk).2
  simpa using of_decide_eq_true this

theorem summarize_categories (t : Table) :
    (summarize t).map SummaryRow.category = groupKeys t := by
  unfold summarize
  rw [List.map_map]
  show List.map (fun k => k) (groupKeys t) = groupKeys t
  simp

theorem filter_map_cats (rows : List Row) :
    ((rows.filter (fun r => decide (catOf r ≠ .vnull))).map catOf).filter
        (fun v => decide (v ≠ .vnull))
      = (rows.map catOf).filter (fun v => decide (v ≠ .vnull)) := by
  induction rows with
  | nil => rfl
  | cons r rs ih =>
    by_cases hv : catOf r = .vnull
    · simpa [hv] using ih
    · simpa [hv] using ih

theorem groupRows_dropNullCat (t : Table) (k : Value) (hk : k ≠ .vnull) :
    groupRows (dropNullCat t) k = groupRows t k := by
  unfold groupRows dropNullCat
  rw [List.filter_filter]
  apply List.filter_congr
  intro r _
  by_cases h : catOf r = k
  · simp [h, hk, Ne.symm]
  · simp [h]

/-- C3 counterexample: on the table whose categories appear in the
order B, A, the summary's rows come out in sorted order A, B (pandas
groupby sorts group labels), not in first-appearance order B, A. -/
theorem C3_counterexample :
    (summarize tableBA).map SummaryRow.category = [Value.vstr "A", Value.vstr "B"]
    ∧ firstAppear (catsOf tableBA) = [Value.vstr "B", Value.vstr "A"]
    ∧ (summarize tableBA).map SummaryRow.category ≠ firstAppear (catsOf tableBA) := by decide

/-- C3 amended: for every table, the summary holds one row per
distinct non-null category (its label list is a permutation of the
distinct categories in first-appearance order), but the rows are
emitted in ascending label order — the `groupby(sort=True)` default —
not in first-appearance order. -/
theorem C3_group_order_amended (t : Table) :
    List.Sorted vle ((summarize t).map SummaryRow.category)
    ∧ List.Perm ((summarize t).map SummaryRow.category) (firstAppear (catsOf t)) := by
  rw [summarize_categories]
  unfold groupKeys
  exact ⟨List.sorted_insertionSort vle _, List.perm_insertionSort vle _⟩

/-- C9: rows whose category cell is the null marker take no part in
the summary: removing them changes nothing (so they contribute to no
group's Total Quantity or Average Price), and no summary row carries
the null category. -/
theorem C9_null_category_excluded (t : Table) :
    summarize (dropNullCat t) = summarize t
    ∧ ∀ s ∈ summarize t, s.category ≠ .vnull := by
  have hcats : catsOf (dropNullCat t) = catsOf t := filter_map_cats t.rows
  have hkeys : groupKeys (dropNullCat t) = groupKeys t := by
    unfold groupKeys
    rw [hcats]
  constructor
  · unfold summarize
    rw [hkeys]
    apply List.map_congr_left
    intro k hk
    rw [groupRows_dropNullCat t k (groupKeys_ne_null t k hk)]
  · intro s hs
    obtain ⟨k, hk, rfl⟩ := List.mem_map.mp (by simpa [summarize] using hs)
    exact groupKeys_ne_null t k hk

/-- Witness for C9 at a concrete input: a table with one null-category
row. -/
theorem C9_null_category_excluded_witness :
    summarize (dropNullCat nullCatTable) = summarize nullCatTable :=
  (C9_null_category_excluded nullCatTable).1

theorem isFatal_addRes (r : AddOutcome) : isFatal (.addRes r) = false := rfl

theorem isFatal_queryRes (r : QueryResult) : isFatal (.queryRes r) = false := rfl

theorem isFatal_topRes (r : TopResult) : isFatal (.topRes r) = false := rfl

/-- C8 counterexample: on a valid table, a failing report write does
not surface as a handled WriteError with the manager still usable:
do_generate wraps to_csv in no try/except, so the exception escapes
the method, and cmd.Cmd.cmdloop wraps onecmd in no handler, so it is
fatal to the session. -/
theorem C8_counterexample :
    doGenerate "out.csv" false sampleTable = .uncaughtWriteError
    ∧ isFatal (step (.generateCmd "out.csv" false) sampleTable).1 = true
    ∧ isHandledError (step (.generateCmd "out.csv" false) sampleTable).1 = false := by decide

/-- C8 amended: every error the four operations handle themselves
(no-data, bad condition format, column not found, the three load
failures, missing report columns, invalid count) is local to the
invocation: the session continues (not fatal) and the table is left
exactly as it was. A failure of generate's file write, however, is
not handled: on a valid table it escapes as an uncaught exception and
terminates the session, leaving the in-memory table unchanged —
nothing converts it to a handled WriteError and nothing makes the
file write all-or-nothing. The program has further uncaught-exception
paths that likewise kill the session (a malformed regex raising
re.error in query, read_csv exceptions outside the two caught classes
in load); they lie outside this embedding, so no exclusiveness of the
fatal write path is claimed. -/
theorem C8_errors_are_local_amended (c : Command) (t : Table) :
    (isHandledError (step c t).1 = true → (step c t).2 = t ∧ isFatal (step c t).1 = false)
    ∧ (∀ o, c = .generateCmd o false → t.rows ≠ [] →
        requiredColumns.all (fun col => decide (col ∈ t.cols)) = true →
        isFatal (step c t).1 = true ∧ (step c t).2 = t) := by
  cases c with
  | addData d fs =>
    refine ⟨fun hh => ⟨?_, isFatal_addRes _⟩, fun o h => nomatch h⟩
    show (doAddData d fs t).2 = t
    apply doAddData_snd_of_ne_loaded
    intro hl
    rw [show (step (.addData d fs) t).1 = .addRes (doAddData d fs t).1 from rfl, hl] at hh
    exact absurd hh (by decide)
  | queryCmd cond =>
    exact ⟨fun _ => ⟨rfl, isFatal_queryRes _⟩, fun o h => nomatch h⟩
  | showTopCmd cnt =>
    exact ⟨fun _ => ⟨rfl, isFatal_topRes _⟩, fun o h => nomatch h⟩
  | generateCmd o w =>
    have hstep : (step (.generateCmd o w) t).1 = .genRes (doGenerate o w t) := rfl
    constructor
    · intro hh
      refine ⟨rfl, ?_⟩
      rw [hstep] at hh ⊢
      rcases hg : doGenerate o w t with _ | _ | ⟨s, p⟩ | _
      · rfl
      · rfl
      · rfl
      · rw [hg] at hh
        exact absurd hh (by decide)
    · intro o2 heq hrows hcols
      injection heq with h1 h2
      subst h1
      subst h2
      have hre : t.rows.isEmpty = false := by simpa using hrows
      have hgen : doGenerate o false t = .uncaughtWriteError := by
        unfold doGenerate
        rw [hre]
        simp [hcols]
      refine ⟨?_, rfl⟩
      rw [hstep, hgen]
      rfl

/-- Witness for C8 amended at concrete inputs: a handled query error
leaves the table unchanged and the session alive, and a failing
report write on the example table is fatal while the table survives. -/
theorem C8_errors_are_local_amended_witness :
    ((step (.queryCmd "x") emptyTable).2 = emptyTable
      ∧ isFatal (step (.queryCmd "x") emptyTable).1 = false)
    ∧ (isFatal (step (.generateCmd "out.csv" false) sampleTable).1 = true
      ∧ (step (.generateCmd "out.csv" false) sampleTable).2 = sampleTable) :=
  ⟨(C8_errors_are_local_amended (.queryCmd "x") emptyTable).1 (by decide),
   (C8_errors_are_local_amended (.generateCmd "out.csv" false) sampleTable).2 "out.csv" rfl
     (by decide) (by decide)⟩

/-- C2: on a table whose rows are {category A, quantity 10, unit_price
5.0}, {B, 20, 10.0}, {A, 30, 15.0}, generate produces exactly two
summary rows: A with Total Quantity 40 and Average Price 10.0, and B
with Total Quantity 20 and Average Price 10.0 (per-category sum of
quantity, arithmetic mean of unit_price). -/
theorem C2_generate_worked_example :
    summarize sampleTable =
      [⟨Value.vstr "A", 40, some 10⟩, ⟨Value.vstr "B", 20, some 10⟩] := by decide

/-- C4 counterexample: the count "-1" parses as the integer -1 ≤ 0,
for which the claim demands an empty sequence; but show_top on the
three-row example table returns its first two rows (pandas `head(-1)`
keeps all rows but the last one). -/
theorem C4_counterexample :
    pythonInt "-1" = some (-1) ∧ (-1 : Int) ≤ 0
      ∧ doShowTop "-1" sampleTable = .shown [rowA1, rowB1]
      ∧ ([rowA1, rowB1] : List Row) ≠ [] := by decide

/-- C4 amended: for every non-empty table, an empty count input
defaults to 5; a count that parses as an integer n ≥ 0 yields the
first min(n, tableSize) rows in table order (so n = 0 yields the
empty sequence); a count that parses as n < 0 yields the first
max(tableSize + n, 0) rows, i.e. all rows but the last -n — not the
empty sequence. Every answer is a prefix of the table's row list. -/
theorem C4_show_top_amended (t : Table) (h : ¬ t.rows.isEmpty) :
    doShowTop "" t = .shown (t.rows.take 5)
    ∧ ∀ s n, pythonInt s = some n →
        doShowTop s t = .shown (pandasHead n t.rows)
        ∧ (0 ≤ n → pandasHead n t.rows = t.rows.take n.toNat
            ∧ (pandasHead n t.rows).length = min n.toNat t.rows.length)
        ∧ (n < 0 → pandasHead n t.rows = t.rows.take (t.rows.length - (-n).toNat))
        ∧ ∃ k, pandasHead n t.rows = t.rows.take k := by
  constructor
  · simp only [doShowTop, h, if_false, if_pos rfl, Bool.false_eq_true]
    norm_num [pandasHead]
    rfl
  · intro s n hp
    have hs : s ≠ "" := by
      intro he
      rw [he] at hp
      simp [pythonInt, trimChars] at hp
    have hstep : doShowTop s t = .shown (pandasHead n t.rows) := by
      simp only [doShowTop, h, hs, hp, Bool.false_eq_true, if_false]
    refine ⟨hstep, fun hn => ?_, fun hn => ?_, ?_⟩
    · rw [pandasHead, if_pos hn]
      exact ⟨rfl, List.length_take _ _⟩
    · rw [pandasHead, if_neg (not_le.mpr hn)]
    · by_cases hn : 0 ≤ n
      · exact ⟨n.toNat, by rw [pandasHead, if_pos hn]⟩
      · exact ⟨t.rows.length - (-n).toNat, by rw [pandasHead, if_neg hn]⟩

/-- Witness for C4 amended at a concrete input. -/
theorem C4_show_top_amended_witness :
    doShowTop "2" sampleTable = .shown [rowA1, rowB1] := by
  have h := ((C4_show_top_amended sampleTable (by decide)).2 "2" 2 (by decide)).1
  rw [h]; decide

/-- C7: a load that fails with NotADirectoryError (path not a
directory), NoInputFilesError (no .csv entries) or NoValidDataError
(zero files parsed) is aborted and leaves the manager's table exactly
unchanged. -/
theorem C7_failed_load_preserves_table (isDir : Bool) (files : List ParseOutcome) (t : Table)
    (h : (doAddData isDir files t).1 = .notADirectory
      ∨ (doAddData isDir files t).1 = .noInputFiles
      ∨ (doAddData isDir files t).1 = .noValidData) :
    (doAddData isDir files t).2 = t := by
  apply doAddData_snd_of_ne_loaded
  rcases h with h | h | h <;> rw [h] <;> exact fun hc => by cases hc

/-- Witness for C7 at a concrete input: a non-directory path. -/
theorem C7_failed_load_preserves_table_witness :
    (doAddData false sampleFiles sampleTable).2 = sampleTable :=
  C7_failed_load_preserves_table false sampleFiles sampleTable (Or.inl (by decide))

end StockSpec
